import Mathlib

/-!
Verification of the user CRUD service in `api.py`.

The service stores `UserModel` rows (id, email, first_name, last_name) in a
SQLite table whose `email` column carries a unique constraint and whose `id`
column is the integer primary key.  Five handlers are exposed:
`Users.get` (list), `Users.post` (create), `User.get` (item get),
`User.delete` and `User.patch`, all decorated with
`marshal_with(userFields)` where `userFields` is
id : Integer, email : String, first_name : String, last_name : String.

The embedding below models the database as a list of rows in insertion
order, request bodies as records of optional strings, and each handler as a
function returning the marshalled response (or the error the handler aborts
with) together with the database state after the call.
-/

namespace FlaskUserApi

/-- A row of the `users` table (`UserModel` in `api.py`): integer primary key
`id`, and the three string columns.  `email` carries a unique constraint at
the persistence layer (`unique=True` on the column). -/
structure UserRow where
  id : Nat
  email : String
  first_name : String
  last_name : String
  deriving Repr, DecidableEq

/-- The database: the rows of the `users` table in storage (insertion) order. -/
abbrev DB := List UserRow

/-- The fixed response shape produced by `marshal_with(userFields)`:
`fields.Integer` defaults to 0 and `fields.String` to null when the
marshalled object lacks the attribute, hence the optional string fields. -/
structure UserDTO where
  id : Nat
  email : Option String
  first_name : Option String
  last_name : Option String
  deriving Repr, DecidableEq

/-- Marshalling a `UserModel` row through `userFields`. -/
def marshalUser (u : UserRow) : UserDTO :=
  ⟨u.id, some u.email, some u.first_name, some u.last_name⟩

/-- Marshalling an object that is not a user row (such as the confirmation
string returned by `User.delete`) through `userFields`: every attribute
lookup falls back to the field default, 0 for `fields.Integer` and null for
`fields.String`. -/
def marshalNonRecord : UserDTO := ⟨0, none, none, none⟩

/-- An incoming request body, as seen by `reqparse`: each of the three
declared arguments is either supplied (as a string) or absent. -/
structure ReqBody where
  email : Option String
  first_name : Option String
  last_name : Option String
  deriving Repr, DecidableEq

/-- The namespace produced by a successful `user_args.parse_args()`. -/
structure ParsedArgs where
  email : String
  first_name : String
  last_name : String
  deriving Repr, DecidableEq

/-- The errors a handler can fail with.  `validation` is the 400 abort from
`parse_args`, carrying the argument name and its `help` text.  `notFound`
is the clean 404 the handlers attempt with `abort(404, "User Not Found!")`;
the program never actually produces it, because `abort` is imported from
`flask_restful`, whose signature accepts the message only as a keyword
argument — the positional call raises a TypeError before any abort happens.
`typeError` is that uncaught TypeError, surfacing as a generic 500 server
failure.  `serverError` is the unhandled integrity-constraint failure the
persistence layer raises on a duplicate-email commit, which no handler
catches (also a generic 500). -/
inductive HttpError where
  | validation (field : String) (msg : String)
  | notFound (msg : String)
  | typeError
  | serverError
  deriving Repr, DecidableEq

/-- `user_args.parse_args()`: the three arguments are declared in the order
email, first_name, last_name, each `required=True` with its `help` text.
Error bundling is off (the default), so parsing aborts at the first missing
argument, naming only that argument. -/
def parse_args (b : ReqBody) : Except (String × String) ParsedArgs :=
  match b.email with
  | none => .error ("email", "Email can\x27t be blank")
  | some e =>
    match b.first_name with
    | none => .error ("first_name", "Forname can\x27t be blank")
    | some f =>
      match b.last_name with
      | none => .error ("last_name", "Surname can\x27t be blank")
      | some l => .ok ⟨e, f, l⟩

/-- The largest id stored in the table (0 when empty). -/
def maxId (db : DB) : Nat := db.foldr (fun u m => max u.id m) 0

/-- The id SQLite assigns to a freshly inserted row with an integer primary
key: one more than the largest stored rowid. -/
def nextId (db : DB) : Nat := maxId db + 1

/-- `UserModel.query.filter_by(email=email).first()`: the first stored row
whose email column equals the given email, if any. -/
def filterByEmailFirst (db : DB) (e : String) : Option UserRow :=
  db.find? (fun u => u.email == e)

/-- `Users.get`: `UserModel.query.all()` marshalled through `userFields`,
with the default 200 status. -/
def users_get (db : DB) : List UserDTO × Nat :=
  (db.map marshalUser, 200)

/-- `Users.post`: parse the arguments (400 abort on a missing one), build a
new row, add and commit it.  The commit violates the unique constraint on
`email` when the new email is already stored; that failure is not caught and
the transaction does not take effect.  On success the handler re-queries all
users and returns the marshalled list with status 201.  The second component
is the database after the call. -/
def users_post (db : DB) (b : ReqBody) :
    Except HttpError (List UserDTO × Nat) × DB :=
  match parse_args b with
  | .error (f, m) => (.error (.validation f m), db)
  | .ok args =>
    let user : UserRow := ⟨nextId db, args.email, args.first_name, args.last_name⟩
    if db.any (fun u => u.email == args.email) then
      (.error .serverError, db)
    else
      let db2 := db ++ [user]
      (.ok (db2.map marshalUser, 201), db2)

/-- `User.get`: look up the first row with the given email and return the
marshalled row with the default 200 status.  When none exists the handler
calls `abort(404, "User Not Found!")` — but the message is passed
positionally to `flask_restful.abort`, which only accepts it as a keyword,
so the call raises an uncaught TypeError and the request fails with a 500
server error instead of the intended clean 404. -/
def user_get (db : DB) (e : String) : Except HttpError (UserDTO × Nat) :=
  match filterByEmailFirst db e with
  | none => .error .typeError
  | some u => .ok (marshalUser u, 200)

/-- The confirmation string built by `User.delete`. -/
def deleteConfirmation (e : String) : String :=
  "user: " ++ e ++ " deleted!!"

/-- The raw return value of the `User.delete` handler body, before the
`marshal_with(userFields)` decorator is applied: delete the found row (by
its primary key) and return the confirmation string with status 204.  When
no row has the given email the handler calls `abort(404, ...)` with a
positional message, which raises an uncaught TypeError (a 500 server
error), not the intended clean 404.  The second component is the database
after the call. -/
def user_delete_raw (db : DB) (e : String) :
    Except HttpError (String × Nat) × DB :=
  match filterByEmailFirst db e with
  | none => (.error .typeError, db)
  | some u =>
    ((.ok (deleteConfirmation e, 204)), db.filter (fun v => !(v.id == u.id)))

/-- `User.delete` as exposed: the `marshal_with(userFields)` decorator
marshals the handler return value, so the confirmation string is serialized
through `userFields` and every field falls back to its default. -/
def user_delete (db : DB) (e : String) :
    Except HttpError (UserDTO × Nat) × DB :=
  match user_delete_raw db e with
  | (.error err, db2) => (.error err, db2)
  | (.ok (_, code), db2) => (.ok (marshalNonRecord, code), db2)

/-- `User.patch`: parse the arguments first (the same three required
arguments as create), then look up the row by email; when found, overwrite
first_name and last_name with the parsed values, commit, and return the
marshalled updated row with the default 200 status.  When the email is
absent the handler calls `abort(404, ...)` with a positional message, which
raises an uncaught TypeError (a 500 server error), not the intended clean
404. -/
def user_patch (db : DB) (e : String) (b : ReqBody) :
    Except HttpError (UserDTO × Nat) × DB :=
  match parse_args b with
  | .error (f, m) => (.error (.validation f m), db)
  | .ok args =>
    match filterByEmailFirst db e with
    | none => (.error .typeError, db)
    | some u =>
      let u2 : UserRow := ⟨u.id, u.email, args.first_name, args.last_name⟩
      let db2 := db.map (fun v => if v.id == u.id then u2 else v)
      (.ok (marshalUser u2, 200), db2)

/-- The states the database can reach from the empty table through the
mutating handlers.  `Users.get` and `User.get` do not change state. -/
inductive Reachable : DB → Prop where
  | init : Reachable []
  | post (db : DB) (b : ReqBody) : Reachable db → Reachable (users_post db b).2
  | del (db : DB) (e : String) : Reachable db → Reachable (user_delete db e).2
  | patch (db : DB) (e : String) (b : ReqBody) :
      Reachable db → Reachable (user_patch db e b).2

/-- The schema constraints of the `users` table: `id` is the primary key
and `email` is unique, so distinct rows have distinct ids and distinct
emails. -/
def Invariant (db : DB) : Prop :=
  db.Pairwise (fun a b => a.id ≠ b.id ∧ a.email ≠ b.email)

example : users_post [] ⟨some "a@x.com", some "A", some "X"⟩ =
    (.ok ([⟨1, some "a@x.com", some "A", some "X"⟩], 201),
     [⟨1, "a@x.com", "A", "X"⟩]) := rfl

example : user_get [⟨1, "a@x.com", "A", "X"⟩] "a@x.com" =
    .ok (⟨1, some "a@x.com", some "A", some "X"⟩, 200) := rfl

example : user_delete [⟨1, "a@x.com", "A", "X"⟩] "a@x.com" =
    (.ok (⟨0, none, none, none⟩, 204), []) := rfl

example : user_patch [⟨1, "a@x.com", "A", "X"⟩] "a@x.com"
    ⟨none, some "B", some "Y"⟩ =
    (.error (.validation "email" "Email can\x27t be blank"),
     [⟨1, "a@x.com", "A", "X"⟩]) := rfl

/-- C1: code bug at the failing input.  The item-get on a stored email
returns the first matching user marshalled to the fixed field set, as the
claim says; but on an absent email the handler's
`abort(404, "User Not Found!")` passes the message positionally to
`flask_restful.abort`, raising an uncaught TypeError that surfaces as a 500
server failure — not the clean NotFound 404 the claim states. -/
theorem C1_item_get_crash :
    user_get [⟨1, "a@x.com", "A", "X"⟩, ⟨2, "b@x.com", "B", "Y"⟩] "b@x.com" =
      .ok (marshalUser ⟨2, "b@x.com", "B", "Y"⟩, 200) ∧
    user_get [⟨1, "a@x.com", "A", "X"⟩] "c@x.com" = .error .typeError ∧
    HttpError.typeError ≠ HttpError.notFound "User Not Found!" :=
  ⟨rfl, rfl, by decide⟩

/-- C2 counterexample: a create request missing both first_name and
last_name aborts with a validation error naming only first_name (the first
missing argument in declaration order); last_name is missing too but is not
named, so the error does not name all the missing fields. -/
theorem C2_counterexample :
    (ReqBody.mk (some "a@x.com") none none).first_name = none ∧
    (ReqBody.mk (some "a@x.com") none none).last_name = none ∧
    (users_post [] ⟨some "a@x.com", none, none⟩).1 =
      .error (.validation "first_name" "Forname can\x27t be blank") ∧
    ("first_name" : String) ≠ "last_name" :=
  ⟨rfl, rfl, rfl, by decide⟩

/-- C2 (amended): a create request missing any of the three required fields
aborts with a 400 validation error naming the first missing field in the
declaration order email, first_name, last_name, and no row is inserted. -/
theorem C2_create_missing_field (db : DB) (b : ReqBody)
    (h : b.email = none ∨ b.first_name = none ∨ b.last_name = none) :
    (∃ f m, (users_post db b).1 = .error (.validation f m) ∧
      ((f = "email" ∧ b.email = none) ∨
       (f = "first_name" ∧ b.email ≠ none ∧ b.first_name = none) ∨
       (f = "last_name" ∧ b.email ≠ none ∧ b.first_name ≠ none ∧
          b.last_name = none))) ∧
    (users_post db b).2 = db := by
  obtain ⟨be, bf, bl⟩ := b
  cases be with
  | none =>
    exact ⟨⟨"email", "Email can\x27t be blank",
      by simp [users_post, parse_args], Or.inl ⟨rfl, rfl⟩⟩,
      by simp [users_post, parse_args]⟩
  | some e =>
    cases bf with
    | none =>
      exact ⟨⟨"first_name", "Forname can\x27t be blank",
        by simp [users_post, parse_args], Or.inr (Or.inl ⟨rfl, by simp, rfl⟩)⟩,
        by simp [users_post, parse_args]⟩
    | some f =>
      cases bl with
      | none =>
        exact ⟨⟨"last_name", "Surname can\x27t be blank",
          by simp [users_post, parse_args],
          Or.inr (Or.inr ⟨rfl, by simp, by simp, rfl⟩)⟩,
          by simp [users_post, parse_args]⟩
      | some l => simp at h

/-- C2 witness: a create request that omits first_name aborts with the 400
validation error naming first_name and leaves the empty store unchanged. -/
theorem C2_create_missing_field_witness :
    (∃ f m, (users_post [] ⟨some "a@x.com", none, some "Y"⟩).1 =
        .error (.validation f m) ∧
      ((f = "email" ∧ (ReqBody.mk (some "a@x.com") none (some "Y")).email = none) ∨
       (f = "first_name" ∧ (ReqBody.mk (some "a@x.com") none (some "Y")).email ≠ none ∧
          (ReqBody.mk (some "a@x.com") none (some "Y")).first_name = none) ∨
       (f = "last_name" ∧ (ReqBody.mk (some "a@x.com") none (some "Y")).email ≠ none ∧
          (ReqBody.mk (some "a@x.com") none (some "Y")).first_name ≠ none ∧
          (ReqBody.mk (some "a@x.com") none (some "Y")).last_name = none))) ∧
    (users_post [] ⟨some "a@x.com", none, some "Y"⟩).2 = [] :=
  C2_create_missing_field [] ⟨some "a@x.com", none, some "Y"⟩ (Or.inr (Or.inl rfl))

/-- C3 counterexample: with a stored user of email a@x.com, an update
request on that email whose body supplies first_name and last_name but no
email aborts with the 400 validation error naming email — it does not
succeed with 200 — because the shared parser requires all three arguments. -/
theorem C3_counterexample :
    user_patch [⟨1, "a@x.com", "A", "X"⟩] "a@x.com" ⟨none, some "B", some "Y"⟩ =
      (.error (.validation "email" "Email can\x27t be blank"),
       [⟨1, "a@x.com", "A", "X"⟩]) := rfl

/-- C3 (amended): the update request body must supply all three fields —
the shared parser also requires email, so a body without it aborts with a
400 validation error naming email; when all three are supplied and the
email exists the update succeeds with 200 and the updated serialized user,
and the supplied email value is ignored (email is not updatable through
this call). -/
theorem C3_patch_email_required (db : DB) (e x f l : String) (u : UserRow)
    (hu : filterByEmailFirst db e = some u) :
    (user_patch db e ⟨some x, some f, some l⟩).1 =
      .ok (marshalUser ⟨u.id, u.email, f, l⟩, 200) ∧
    (∀ b : ReqBody, b.email = none →
       (user_patch db e b).1 =
         .error (.validation "email" "Email can\x27t be blank") ∧
       (user_patch db e b).2 = db) ∧
    (∀ x2 : String, user_patch db e ⟨some x, some f, some l⟩ =
       user_patch db e ⟨some x2, some f, some l⟩) := by
  refine ⟨?_, ?_, ?_⟩
  · simp [user_patch, parse_args, hu, marshalUser]
  · intro b hb
    obtain ⟨be, bf, bl⟩ := b
    simp only at hb
    subst hb
    exact ⟨by simp [user_patch, parse_args], by simp [user_patch, parse_args]⟩
  · intro x2
    simp [user_patch, parse_args]

/-- C3 witness: updating the stored user a@x.com with a full body succeeds
with 200, a body missing email aborts with the validation error, and the
supplied email value does not influence the outcome. -/
theorem C3_patch_email_required_witness :
    (user_patch [⟨1, "a@x.com", "A", "X"⟩] "a@x.com"
        ⟨some "ignored@x.com", some "B", some "Y"⟩).1 =
      .ok (marshalUser ⟨1, "a@x.com", "B", "Y"⟩, 200) ∧
    (∀ b : ReqBody, b.email = none →
       (user_patch [⟨1, "a@x.com", "A", "X"⟩] "a@x.com" b).1 =
         .error (.validation "email" "Email can\x27t be blank") ∧
       (user_patch [⟨1, "a@x.com", "A", "X"⟩] "a@x.com" b).2 =
         [⟨1, "a@x.com", "A", "X"⟩]) ∧
    (∀ x2 : String,
       user_patch [⟨1, "a@x.com", "A", "X"⟩] "a@x.com"
         ⟨some "ignored@x.com", some "B", some "Y"⟩ =
       user_patch [⟨1, "a@x.com", "A", "X"⟩] "a@x.com"
         ⟨some x2, some "B", some "Y"⟩) :=
  C3_patch_email_required [⟨1, "a@x.com", "A", "X"⟩] "a@x.com"
    "ignored@x.com" "B" "Y" ⟨1, "a@x.com", "A", "X"⟩ rfl

/-- C4: a successful update on email `e` returns the updated user with the
original id and email and the new names, keeps the store the same length,
rewrites the found row in place, and leaves every other stored row
unchanged (ids are pairwise distinct, as the primary key guarantees). -/
theorem C4_update_frame (db : DB) (e x f l : String) (u : UserRow)
    (hids : db.Pairwise (fun a b => a.id ≠ b.id))
    (hu : filterByEmailFirst db e = some u) :
    (user_patch db e ⟨some x, some f, some l⟩).1 =
      .ok (marshalUser ⟨u.id, u.email, f, l⟩, 200) ∧
    (user_patch db e ⟨some x, some f, some l⟩).2.length = db.length ∧
    (∀ j : Nat, db[j]? = some u →
       (user_patch db e ⟨some x, some f, some l⟩).2[j]? =
         some ⟨u.id, u.email, f, l⟩) ∧
    (∀ (j : Nat) (v : UserRow), db[j]? = some v → v ≠ u →
       (user_patch db e ⟨some x, some f, some l⟩).2[j]? = some v) := by
  have hmem : u ∈ db := List.mem_of_find?_eq_some hu
  have hdb2 : (user_patch db e ⟨some x, some f, some l⟩).2 =
      db.map (fun v => if v.id == u.id then ⟨u.id, u.email, f, l⟩ else v) := by
    simp [user_patch, parse_args, hu]
  refine ⟨by simp [user_patch, parse_args, hu, marshalUser], ?_, ?_, ?_⟩
  · rw [hdb2]; exact List.length_map db _
  · intro j hj
    rw [hdb2, List.getElem?_map, hj]
    simp
  · intro j v hj hne
    have hvmem : v ∈ db := by
      obtain ⟨h1, h2⟩ := List.getElem?_eq_some.mp hj
      exact h2 ▸ List.getElem_mem h1
    have hsymm : Symmetric (fun a b : UserRow => a.id ≠ b.id) :=
      fun a b hab => Ne.symm hab
    have hid : v.id ≠ u.id :=
      List.Pairwise.forall hsymm hids hvmem hmem hne
    rw [hdb2, List.getElem?_map, hj]
    simp [hid]

/-- C4 witness: in a two-user store, updating b@x.com returns the updated
user with its old id and email, keeps the length, rewrites only the second
row, and leaves the first row unchanged. -/
theorem C4_update_frame_witness :
    (user_patch [⟨1, "a@x.com", "A", "X"⟩, ⟨2, "b@x.com", "B", "Y"⟩] "b@x.com"
        ⟨some "b@x.com", some "C", some "Z"⟩).1 =
      .ok (marshalUser ⟨2, "b@x.com", "C", "Z"⟩, 200) ∧
    (user_patch [⟨1, "a@x.com", "A", "X"⟩, ⟨2, "b@x.com", "B", "Y"⟩] "b@x.com"
        ⟨some "b@x.com", some "C", some "Z"⟩).2.length = 2 ∧
    (∀ j : Nat,
       ([⟨1, "a@x.com", "A", "X"⟩, ⟨2, "b@x.com", "B", "Y"⟩] : DB)[j]? =
         some ⟨2, "b@x.com", "B", "Y"⟩ →
       (user_patch [⟨1, "a@x.com", "A", "X"⟩, ⟨2, "b@x.com", "B", "Y"⟩] "b@x.com"
          ⟨some "b@x.com", some "C", some "Z"⟩).2[j]? =
         some ⟨2, "b@x.com", "C", "Z"⟩) ∧
    (∀ (j : Nat) (v : UserRow),
       ([⟨1, "a@x.com", "A", "X"⟩, ⟨2, "b@x.com", "B", "Y"⟩] : DB)[j]? = some v →
       v ≠ ⟨2, "b@x.com", "B", "Y"⟩ →
       (user_patch [⟨1, "a@x.com", "A", "X"⟩, ⟨2, "b@x.com", "B", "Y"⟩] "b@x.com"
          ⟨some "b@x.com", some "C", some "Z"⟩).2[j]? = some v) :=
  C4_update_frame [⟨1, "a@x.com", "A", "X"⟩, ⟨2, "b@x.com", "B", "Y"⟩]
    "b@x.com" "b@x.com" "C" "Z" ⟨2, "b@x.com", "B", "Y"⟩
    (by simp) rfl

/-- C5: at the failing input, the delete handler body builds the
confirmation string with status 204, but the `marshal_with(userFields)`
decorator wrapped around it serializes that string through the fixed user
field set, so the exposed response carries the default-marshalled
User-shaped object, not the confirmation text. -/
theorem C5_delete_response_shape :
    (user_delete_raw [⟨1, "a@x.com", "A", "X"⟩] "a@x.com").1 =
      .ok (deleteConfirmation "a@x.com", 204) ∧
    deleteConfirmation "a@x.com" = "user: a@x.com deleted!!" ∧
    user_delete [⟨1, "a@x.com", "A", "X"⟩] "a@x.com" =
      (.ok (marshalNonRecord, 204), []) ∧
    marshalNonRecord = ⟨0, none, none, none⟩ :=
  ⟨rfl, rfl, rfl, rfl⟩

/-- C7 counterexample: a create request with all three fields present whose
email equals a stored user's email does not return 201 — the commit
violates the unique email constraint, the uncaught failure surfaces as a
server error and no row is inserted. -/
theorem C7_counterexample :
    users_post [⟨1, "a@x.com", "A", "X"⟩] ⟨some "a@x.com", some "B", some "Y"⟩ =
      (.error .serverError, [⟨1, "a@x.com", "A", "X"⟩]) := rfl

/-- C7 (amended): a create request with all three fields present whose
email differs from every stored user's email inserts exactly one new row
and returns 201 with the full updated marshalled list, which includes the
new user. -/
theorem C7_create_success (db : DB) (e f l : String)
    (hfresh : ∀ u ∈ db, u.email ≠ e) :
    users_post db ⟨some e, some f, some l⟩ =
      (.ok ((db ++ [(⟨nextId db, e, f, l⟩ : UserRow)]).map marshalUser, 201),
       db ++ [(⟨nextId db, e, f, l⟩ : UserRow)]) ∧
    (users_post db ⟨some e, some f, some l⟩).2.length = db.length + 1 ∧
    marshalUser ⟨nextId db, e, f, l⟩ ∈
      (db ++ [(⟨nextId db, e, f, l⟩ : UserRow)]).map marshalUser := by
  have hany : db.any (fun u => u.email == e) = false :=
    List.any_eq_false.mpr (fun u hu => by simpa using hfresh u hu)
  refine ⟨?_, ?_, ?_⟩
  · simp [users_post, parse_args, hany]
  · simp [users_post, parse_args, hany]
  · exact List.mem_map_of_mem marshalUser (List.mem_append_right db (by simp))

/-- C7 witness: creating b@x.com in a one-user store appends the new row
with id 2 and returns 201 with the marshalled two-user list. -/
theorem C7_create_success_witness :
    users_post [⟨1, "a@x.com", "A", "X"⟩] ⟨some "b@x.com", some "B", some "Y"⟩ =
      (.ok ((([(⟨1, "a@x.com", "A", "X"⟩ : UserRow)] : DB) ++
          [(⟨nextId [⟨1, "a@x.com", "A", "X"⟩], "b@x.com", "B", "Y"⟩ : UserRow)]).map
            marshalUser, 201),
        ([(⟨1, "a@x.com", "A", "X"⟩ : UserRow)] : DB) ++
          [(⟨nextId [⟨1, "a@x.com", "A", "X"⟩], "b@x.com", "B", "Y"⟩ : UserRow)]) ∧
    (users_post [⟨1, "a@x.com", "A", "X"⟩]
        ⟨some "b@x.com", some "B", some "Y"⟩).2.length =
      ([⟨1, "a@x.com", "A", "X"⟩] : DB).length + 1 ∧
    marshalUser ⟨nextId [⟨1, "a@x.com", "A", "X"⟩], "b@x.com", "B", "Y"⟩ ∈
      (([(⟨1, "a@x.com", "A", "X"⟩ : UserRow)] : DB) ++
        [(⟨nextId [⟨1, "a@x.com", "A", "X"⟩], "b@x.com", "B", "Y"⟩ : UserRow)]).map
          marshalUser :=
  C7_create_success [⟨1, "a@x.com", "A", "X"⟩] "b@x.com" "B" "Y"
    (by simp)

/-- C6: code bug at the failing input.  Deleting the only user with email
a@x.com succeeds with 204 and the subsequent list result no longer
contains that email, as the claim says; but the second delete of the same
email hits the handler's `abort(404, "User Not Found!")`, whose positional
message raises an uncaught TypeError that surfaces as a 500 server failure
(leaving the store unchanged) — not the clean NotFound 404 the claim
states. -/
theorem C6_delete_twice_crash :
    (user_delete [⟨1, "a@x.com", "A", "X"⟩] "a@x.com").1 =
      .ok (marshalNonRecord, 204) ∧
    (users_get (user_delete [⟨1, "a@x.com", "A", "X"⟩] "a@x.com").2).1 = [] ∧
    user_delete (user_delete [⟨1, "a@x.com", "A", "X"⟩] "a@x.com").2 "a@x.com" =
      (.error .typeError, []) ∧
    HttpError.typeError ≠ HttpError.notFound "User Not Found!" :=
  ⟨rfl, rfl, rfl, by decide⟩

/-- Every stored id is bounded by `maxId`. -/
theorem le_maxId (db : DB) (u : UserRow) (hu : u ∈ db) : u.id ≤ maxId db := by
  induction db with
  | nil => simp at hu
  | cons a t ih =>
    simp only [maxId, List.foldr_cons]
    rcases List.mem_cons.mp hu with h | h
    · rw [h]; exact le_max_left _ _
    · exact le_trans (ih h) (le_max_right _ _)

/-- The create handler preserves the schema constraints: a successful
insert carries a fresh id (one past the stored maximum) and an email no
stored row has. -/
theorem invariant_post (db : DB) (b : ReqBody) (h : Invariant db) :
    Invariant (users_post db b).2 := by
  cases hp : parse_args b with
  | error fm =>
    obtain ⟨f, m⟩ := fm
    simpa [users_post, hp] using h
  | ok args =>
    cases hany : db.any (fun u => u.email == args.email) with
    | true => simpa [users_post, hp, hany] using h
    | false =>
      have hdb2 : (users_post db b).2 =
          db ++ [⟨nextId db, args.email, args.first_name, args.last_name⟩] := by
        simp [users_post, hp, hany]
      rw [hdb2]
      refine List.pairwise_append.mpr ⟨h, by simp, ?_⟩
      intro x hx y hy
      have hy2 : y = ⟨nextId db, args.email, args.first_name, args.last_name⟩ :=
        List.mem_singleton.mp hy
      subst hy2
      constructor
      · have := le_maxId db x hx
        simp only [nextId]
        omega
      · have := List.any_eq_false.mp hany x hx
        simpa using this

/-- The delete handler preserves the schema constraints: it only removes
rows. -/
theorem invariant_delete (db : DB) (e : String) (h : Invariant db) :
    Invariant (user_delete db e).2 := by
  cases hfind : db.find? (fun u => u.email == e) with
  | none => simpa [user_delete, user_delete_raw, filterByEmailFirst, hfind] using h
  | some u =>
    have hdb2 : (user_delete db e).2 = db.filter (fun v => !(v.id == u.id)) := by
      simp [user_delete, user_delete_raw, filterByEmailFirst, hfind]
    rw [hdb2]
    exact List.Pairwise.sublist (List.filter_sublist db) h

/-- Rewriting the row whose id matches a stored row `u` with a row that
keeps the same id and email preserves the schema constraints. -/
theorem invariant_patch_map (db : DB) (u u2 : UserRow)
    (humem : u ∈ db) (hid : u2.id = u.id) (hemail : u2.email = u.email)
    (h : Invariant db) :
    Invariant (db.map (fun v => if v.id == u.id then u2 else v)) := by
  have hsym : Symmetric (fun a b : UserRow => a.id ≠ b.id ∧ a.email ≠ b.email) :=
    fun a b hab => ⟨hab.1.symm, hab.2.symm⟩
  have heqrow : ∀ v ∈ db, v.id = u.id → v = u := by
    intro v hv hvid
    by_contra hne
    exact (List.Pairwise.forall hsym h hv humem hne).1 hvid
  rw [Invariant, List.pairwise_map]
  refine List.Pairwise.imp_of_mem ?_ h
  intro a b ha hb hab
  have hga : (if a.id == u.id then u2 else a).id = a.id ∧
      (if a.id == u.id then u2 else a).email = a.email := by
    by_cases haid : a.id = u.id
    · have ha2 : a = u := heqrow a ha haid
      subst ha2
      simp [hid, hemail]
    · simp [haid]
  have hgb : (if b.id == u.id then u2 else b).id = b.id ∧
      (if b.id == u.id then u2 else b).email = b.email := by
    by_cases hbid : b.id = u.id
    · have hb2 : b = u := heqrow b hb hbid
      subst hb2
      simp [hid, hemail]
    · simp [hbid]
  refine ⟨?_, ?_⟩
  · rw [hga.1, hgb.1]; exact hab.1
  · rw [hga.2, hgb.2]; exact hab.2

/-- The update handler preserves the schema constraints: it keeps the id
and email of the row it rewrites. -/
theorem invariant_patch (db : DB) (e : String) (b : ReqBody) (h : Invariant db) :
    Invariant (user_patch db e b).2 := by
  cases hp : parse_args b with
  | error fm =>
    obtain ⟨f, m⟩ := fm
    simpa [user_patch, hp] using h
  | ok args =>
    cases hfind : db.find? (fun u => u.email == e) with
    | none => simpa [user_patch, hp, filterByEmailFirst, hfind] using h
    | some u =>
      have hdb2 : (user_patch db e b).2 =
          db.map (fun v => if v.id == u.id then
            (⟨u.id, u.email, args.first_name, args.last_name⟩ : UserRow) else v) := by
        simp [user_patch, hp, filterByEmailFirst, hfind]
      rw [hdb2]
      exact invariant_patch_map db u _ (List.mem_of_find?_eq_some hfind) rfl rfl h

/-- Every reachable store satisfies the schema constraints. -/
theorem reachable_invariant (db : DB) (h : Reachable db) : Invariant db := by
  induction h with
  | init => exact List.Pairwise.nil
  | post db b _ ih => exact invariant_post db b ih
  | del db e _ ih => exact invariant_delete db e ih
  | patch db e b _ ih => exact invariant_patch db e b ih

/-- C8: in every reachable store no two stored users share an email (the
unique constraint the persistence layer enforces), and a create request
whose email equals a stored user's email fails with the unguarded server
failure — not a clean validation or not-found error — and inserts
nothing. -/
theorem C8_email_uniqueness :
    (∀ db : DB, Reachable db → db.Pairwise (fun a b => a.email ≠ b.email)) ∧
    (∀ (db : DB) (e f l : String), (∃ u ∈ db, u.email = e) →
       users_post db ⟨some e, some f, some l⟩ = (.error .serverError, db)) := by
  constructor
  · intro db h
    exact List.Pairwise.imp (fun hab => hab.2) (reachable_invariant db h)
  · rintro db e f l ⟨u, hu, he⟩
    have hany : db.any (fun x => x.email == e) = true :=
      List.any_eq_true.mpr ⟨u, hu, by simp [he]⟩
    simp [users_post, parse_args, hany]

/-- C8 witness: the one-user store reached by creating a@x.com has pairwise
distinct emails, and re-creating a@x.com there fails with the server
failure and leaves the store unchanged. -/
theorem C8_email_uniqueness_witness :
    ([(⟨1, "a@x.com", "A", "X"⟩ : UserRow)] : DB).Pairwise
      (fun a b => a.email ≠ b.email) ∧
    users_post [⟨1, "a@x.com", "A", "X"⟩] ⟨some "a@x.com", some "B", some "Y"⟩ =
      (.error .serverError, [⟨1, "a@x.com", "A", "X"⟩]) := by
  have h0 := Reachable.post [] ⟨some "a@x.com", some "A", some "X"⟩ Reachable.init
  have heq : (users_post [] ⟨some "a@x.com", some "A", some "X"⟩).2 =
      [(⟨1, "a@x.com", "A", "X"⟩ : UserRow)] := rfl
  have hreach : Reachable [(⟨1, "a@x.com", "A", "X"⟩ : UserRow)] :=
    Eq.mp (congrArg Reachable heq) h0
  exact ⟨C8_email_uniqueness.1 _ hreach,
    C8_email_uniqueness.2 _ "a@x.com" "B" "Y"
      ⟨⟨1, "a@x.com", "A", "X"⟩, by simp, rfl⟩⟩

/-- C9: creating a fresh email `e` returns 201 with the updated marshalled
list; the item-get on `e` then returns exactly the fields supplied at
creation together with the id assigned at creation, and the list result
contains exactly one entry with email `e`, namely that user. -/
theorem C9_roundtrip (db : DB) (e f l : String)
    (hfresh : ∀ u ∈ db, u.email ≠ e) :
    (users_post db ⟨some e, some f, some l⟩).1 =
      .ok ((users_post db ⟨some e, some f, some l⟩).2.map marshalUser, 201) ∧
    user_get (users_post db ⟨some e, some f, some l⟩).2 e =
      .ok (marshalUser ⟨nextId db, e, f, l⟩, 200) ∧
    (users_get (users_post db ⟨some e, some f, some l⟩).2).1.filter
        (fun d => d.email == some e) = [marshalUser ⟨nextId db, e, f, l⟩] := by
  have hany : db.any (fun u => u.email == e) = false :=
    List.any_eq_false.mpr (fun u hu => by simpa using hfresh u hu)
  have hfindnone : db.find? (fun u => u.email == e) = none :=
    List.find?_eq_none.mpr (fun u hu => by simpa using hfresh u hu)
  have hdb2 : (users_post db ⟨some e, some f, some l⟩).2 =
      db ++ [(⟨nextId db, e, f, l⟩ : UserRow)] := by
    simp [users_post, parse_args, hany]
  refine ⟨?_, ?_, ?_⟩
  · simp [users_post, parse_args, hany]
  · rw [hdb2]
    have hfind : (db ++ [(⟨nextId db, e, f, l⟩ : UserRow)]).find?
        (fun u => u.email == e) = some ⟨nextId db, e, f, l⟩ := by
      rw [List.find?_append, hfindnone]
      simp
    simp [user_get, filterByEmailFirst, hfind]
  · rw [hdb2]
    simp only [users_get, List.filter_map, List.filter_append]
    have h1 : db.filter ((fun d => d.email == some e) ∘ marshalUser) = [] := by
      rw [List.filter_eq_nil_iff]
      intro u hu
      simpa [marshalUser] using hfresh u hu
    have h2 : ([(⟨nextId db, e, f, l⟩ : UserRow)] : DB).filter
        ((fun d => d.email == some e) ∘ marshalUser) = [⟨nextId db, e, f, l⟩] := by
      simp [marshalUser]
    rw [h1, h2]
    simp

/-- C9 witness: creating b@x.com in a one-user store, the item-get on
b@x.com returns the created user with id 2, and the list result contains
exactly that entry with email b@x.com. -/
theorem C9_roundtrip_witness :
    (users_post [⟨1, "a@x.com", "A", "X"⟩] ⟨some "b@x.com", some "B", some "Y"⟩).1 =
      .ok ((users_post [⟨1, "a@x.com", "A", "X"⟩]
          ⟨some "b@x.com", some "B", some "Y"⟩).2.map marshalUser, 201) ∧
    user_get (users_post [⟨1, "a@x.com", "A", "X"⟩]
        ⟨some "b@x.com", some "B", some "Y"⟩).2 "b@x.com" =
      .ok (marshalUser ⟨nextId [⟨1, "a@x.com", "A", "X"⟩], "b@x.com", "B", "Y"⟩, 200) ∧
    (users_get (users_post [⟨1, "a@x.com", "A", "X"⟩]
        ⟨some "b@x.com", some "B", some "Y"⟩).2).1.filter
        (fun d => d.email == some "b@x.com") =
      [marshalUser ⟨nextId [⟨1, "a@x.com", "A", "X"⟩], "b@x.com", "B", "Y"⟩] :=
  C9_roundtrip [⟨1, "a@x.com", "A", "X"⟩] "b@x.com" "B" "Y" (by decide)

/-- C10: the update handler parses the request body before looking up the
email, so an update on a non-existent email whose body misses a required
field aborts with the 400 validation error — not the 404 not-found error —
and the store is unchanged. -/
theorem C10_patch_validates_first (db : DB) (e : String) (b : ReqBody)
    (habsent : ∀ u ∈ db, u.email ≠ e)
    (hmiss : b.email = none ∨ b.first_name = none ∨ b.last_name = none) :
    (∃ f m, (user_patch db e b).1 = .error (.validation f m)) ∧
    (∀ m, (user_patch db e b).1 ≠ .error (.notFound m)) ∧
    (user_patch db e b).2 = db := by
  obtain ⟨be, bf, bl⟩ := b
  have hperr : ∃ f m, parse_args ⟨be, bf, bl⟩ = .error (f, m) := by
    cases be with
    | none => exact ⟨"email", "Email can\x27t be blank", rfl⟩
    | some e2 =>
      cases bf with
      | none => exact ⟨"first_name", "Forname can\x27t be blank", rfl⟩
      | some f2 =>
        cases bl with
        | none => exact ⟨"last_name", "Surname can\x27t be blank", rfl⟩
        | some l2 => simp at hmiss
  obtain ⟨f, m, hp⟩ := hperr
  have h1 : (user_patch db e ⟨be, bf, bl⟩).1 = .error (.validation f m) := by
    simp [user_patch, hp]
  refine ⟨⟨f, m, h1⟩, ?_, by simp [user_patch, hp]⟩
  intro m2 hcontra
  rw [h1] at hcontra
  simp at hcontra

/-- C10 witness: updating the absent email b@x.com with a body missing
first_name and last_name aborts with a validation error, not the 404
error, and leaves the one-user store unchanged. -/
theorem C10_patch_validates_first_witness :
    (∃ f m, (user_patch [⟨1, "a@x.com", "A", "X"⟩] "b@x.com"
        ⟨some "b@x.com", none, none⟩).1 = .error (.validation f m)) ∧
    (∀ m, (user_patch [⟨1, "a@x.com", "A", "X"⟩] "b@x.com"
        ⟨some "b@x.com", none, none⟩).1 ≠ .error (.notFound m)) ∧
    (user_patch [⟨1, "a@x.com", "A", "X"⟩] "b@x.com"
        ⟨some "b@x.com", none, none⟩).2 = [⟨1, "a@x.com", "A", "X"⟩] :=
  C10_patch_validates_first [⟨1, "a@x.com", "A", "X"⟩] "b@x.com"
    ⟨some "b@x.com", none, none⟩ (by decide) (Or.inr (Or.inl rfl))

end FlaskUserApi
